import Mathlib

/-!
# Verification of the image-filter program (src/filter.py)

Shallow embedding of the pixel-transform core of `filter.py`: the four
per-pixel conversion functions, the filter registry, and the in-place
pixel-map transformer.

Python evaluates the grayscale and sepia weights in IEEE-754 double
precision (`0.299 * r + 0.587 * g + 0.114 * b`) and then truncates with
`int(...)`.  For channel values in `[0, 255]` every intermediate double in
those expressions is an integer multiple of `2 ^ (-56)`, so the float
computation is embedded exactly as arithmetic on naturals scaled by
`2 ^ 56`: `flN` is correct rounding to 53 significant bits
(round-to-nearest, ties-to-even) on that scale, and `dbl1000 a` is the
double nearest to the literal `a / 1000`.
-/

namespace ImageFilter

/-- Binary logarithm (floor) by structural recursion on a fuel argument,
so that it reduces definitionally; correct for `n < 2 ^ fuel`. -/
def lg : Nat → Nat → Nat
  | 0, _ => 0
  | fuel + 1, n => if n < 2 then 0 else lg fuel (n / 2) + 1

/-- Floor of the binary logarithm, valid for `n < 2 ^ 128` (every number in
the pixel pipeline is below `2 ^ 70`). -/
def log2f (n : Nat) : Nat := lg 128 n

/-- Round `n` to a multiple of `2 ^ s` by round-to-nearest, ties-to-even. -/
def fround (s n : Nat) : Nat :=
  if 2 ^ (s - 1) < n % 2 ^ s then (n / 2 ^ s + 1) * 2 ^ s
  else if n % 2 ^ s < 2 ^ (s - 1) then n / 2 ^ s * 2 ^ s
  else if n / 2 ^ s % 2 = 0 then n / 2 ^ s * 2 ^ s
  else (n / 2 ^ s + 1) * 2 ^ s

/-- IEEE-754 double rounding on naturals scaled by `2 ^ 56`: keep 53
significant bits, round to nearest, ties to even.  Exact for every value
arising in the pixel pipeline (all far from overflow and subnormals). -/
def flN (n : Nat) : Nat :=
  if n < 2 ^ 53 then n else fround (log2f n - 52) n

/-- Nearest integer to `a / b`, ties to even. -/
def roundDiv (a b : Nat) : Nat :=
  if b < 2 * (a % b) then a / b + 1
  else if 2 * (a % b) < b then a / b
  else if a / b % 2 = 0 then a / b
  else a / b + 1

/-- The IEEE-754 double nearest to the decimal literal `a / 1000`, scaled
by `2 ^ 56`.  Used for the twelve weight literals of `filter.py`, all of
which lie in `[0.0625, 1)`, so the unit in the last place is
`2 ^ (t - 56)` with `t` as below. -/
def dbl1000 (a : Nat) : Nat :=
  let t : Nat := if 500 ≤ a then 3 else if 250 ≤ a then 2 else if 125 ≤ a then 1 else 0
  roundDiv (a * 2 ^ (56 - t)) 1000 * 2 ^ t

/-- The Python expression `c1*x + c2*y + c3*z` on doubles, evaluated
left-to-right with a rounding after every product and every addition,
on the `2 ^ 56` scale. -/
def pix3 (c1 c2 c3 x y z : Nat) : Nat :=
  flN (flN (flN (c1 * x) + flN (c2 * y)) + flN (c3 * z))

/-- One output channel of a weighted filter: `int(c1*x + c2*y + c3*z)` in
Python, i.e. the double value truncated toward zero (= floor, the value
being non-negative). -/
def chan1000 (a1 a2 a3 x y z : Nat) : Nat :=
  pix3 (dbl1000 a1) (dbl1000 a2) (dbl1000 a3) x y z / 2 ^ 56

/-- A pixel: an (R, G, B) triple of (unbounded) integers, as in Python. -/
abbrev Pixel := ℤ × ℤ × ℤ

/-- The inner closure of `convert_to_grayscale` in `filter.py`:
`grayscale = 0.299*r + 0.587*g + 0.114*b; return int(grayscale)` three
times.  Modelled for non-negative channels (the only values the 8-bit
image source supplies); a negative input is truncated at 0 by `toNat`. -/
def grayscale_conversion_func (r g b : ℤ) : Pixel :=
  let v : ℤ := (chan1000 299 587 114 r.toNat g.toNat b.toNat : ℕ)
  (v, v, v)

/-- The inner closure of `convert_to_sepia` in `filter.py`: the three
weighted sums with the Microsoft-recommended coefficients, each truncated
with `int(...)`.  Modelled for non-negative channels. -/
def sepia_conversion_func (r g b : ℤ) : Pixel :=
  ((chan1000 393 769 189 r.toNat g.toNat b.toNat : ℕ),
   (chan1000 349 686 168 r.toNat g.toNat b.toNat : ℕ),
   (chan1000 272 534 131 r.toNat g.toNat b.toNat : ℕ))

/-- The inner closure of `convert_to_warmer` in `filter.py`:
`return int(r + 15), int(g), int(b - 15)` (pure integer arithmetic). -/
def warmer_conversion_func (r g b : ℤ) : Pixel :=
  (r + 15, g, b - 15)

/-- The inner closure of `convert_to_cooler` in `filter.py`:
`return int(r - 15), int(g), int(b + 15)` (pure integer arithmetic). -/
def cooler_conversion_func (r g b : ℤ) : Pixel :=
  (r - 15, g, b + 15)

/-- The mutable pixel map of the working image: a pixel for each
`(x, y)` coordinate. -/
abbrev PixelMap := ℕ × ℕ → Pixel

/-- One iteration of the inner loop of `transform_pixels`:
`r, g, b = pixel_map[i, j]; pixel_map[i, j] = conversion_function(r, g, b)` —
the coordinate is read, then that same coordinate is overwritten. -/
def applyAt (f : ℤ → ℤ → ℤ → Pixel) (m : PixelMap) (c : ℕ × ℕ) : PixelMap :=
  fun d => if d = c then f (m c).1 (m c).2.1 (m c).2.2 else m d

/-- The coordinate traversal of `transform_pixels`:
`for i in range(width): for j in range(height)`.  Its length is the number
of pixel reads (and of pixel writes) the transformer performs. -/
def coords (width height : ℕ) : List (ℕ × ℕ) :=
  (List.range width).flatMap fun i => (List.range height).map fun j => (i, j)

/-- `transform_pixels(pixel_map, width, height, conversion_function)`:
apply the conversion function at every coordinate of the traversal,
mutating the map in place (modelled by returning the final map). -/
def transform_pixels (m : PixelMap) (width height : ℕ)
    (f : ℤ → ℤ → ℤ → Pixel) : PixelMap :=
  (coords width height).foldl (applyAt f) m

/-- `convert_to_grayscale(pixel_map, width, height)`. -/
def convert_to_grayscale (m : PixelMap) (width height : ℕ) : PixelMap :=
  transform_pixels m width height grayscale_conversion_func

/-- `convert_to_sepia(pixel_map, width, height)`. -/
def convert_to_sepia (m : PixelMap) (width height : ℕ) : PixelMap :=
  transform_pixels m width height sepia_conversion_func

/-- `convert_to_warmer(pixel_map, width, height)`. -/
def convert_to_warmer (m : PixelMap) (width height : ℕ) : PixelMap :=
  transform_pixels m width height warmer_conversion_func

/-- `convert_to_cooler(pixel_map, width, height)`. -/
def convert_to_cooler (m : PixelMap) (width height : ℕ) : PixelMap :=
  transform_pixels m width height cooler_conversion_func

/-- The `Filter` enumeration of `filter.py`. -/
inductive Filter : Type
  | GRAYSCALE
  | SEPIA
  | WARMER
  | COOLER
deriving DecidableEq

/-- Failure of selector resolution.  `filter.py` raises `KeyError` from
`Filter[enum_name]`; the spec names this condition InvalidFilterSelector. -/
inductive FilterError : Type
  | InvalidFilterSelector
deriving DecidableEq

/-- `filter_name.upper()`: character-wise upper-casing of the selector,
as a list of characters (the selectors of interest are ASCII). -/
def upperName (s : String) : List Char := s.data.map Char.toUpper

/-- `filter_from_string`: upper-case the selector and look it up among the
member names of `Filter`; an unknown name fails (KeyError in Python,
InvalidFilterSelector in the spec's taxonomy). -/
def filter_from_string (s : String) : Except FilterError Filter :=
  let n := upperName s
  if n = "GRAYSCALE".data then .ok .GRAYSCALE
  else if n = "SEPIA".data then .ok .SEPIA
  else if n = "WARMER".data then .ok .WARMER
  else if n = "COOLER".data then .ok .COOLER
  else .error .InvalidFilterSelector

/-- `function_for_filter`: the dispatch table from `Filter` members to the
conversion routines. -/
def function_for_filter : Filter → (PixelMap → ℕ → ℕ → PixelMap)
  | .GRAYSCALE => convert_to_grayscale
  | .SEPIA => convert_to_sepia
  | .WARMER => convert_to_warmer
  | .COOLER => convert_to_cooler

/-- The 2×1 buffer of the end-to-end scenario: pixel (0,0) is
(200,150,100) and pixel (1,0) is (10,10,10). -/
def example_buffer : PixelMap :=
  fun c => if c = (0, 0) then (200, 150, 100)
    else if c = (1, 0) then (10, 10, 10)
    else (0, 0, 0)

/-! ## Rounding-error lemmas for the IEEE double model -/

theorem lg_spec : ∀ fuel n : ℕ, 0 < n → n < 2 ^ fuel →
    2 ^ lg fuel n ≤ n ∧ n < 2 ^ (lg fuel n + 1) := by
  intro fuel
  induction fuel with
  | zero =>
    intro n h1 h2
    simp at h2
    omega
  | succ fuel ih =>
    intro n h1 h2
    simp only [lg]
    by_cases h : n < 2
    · rw [if_pos h]
      simp
      omega
    · rw [if_neg h]
      have hh : 0 < n / 2 := by omega
      have hlt : n / 2 < 2 ^ fuel := by
        rw [pow_succ] at h2
        omega
      obtain ⟨l1, l2⟩ := ih (n / 2) hh hlt
      have e1 : (2 : ℕ) ^ (lg fuel (n / 2) + 1) = 2 ^ lg fuel (n / 2) * 2 :=
        pow_succ 2 _
      have e2 : (2 : ℕ) ^ (lg fuel (n / 2) + 1 + 1) =
          2 ^ (lg fuel (n / 2) + 1) * 2 := pow_succ 2 _
      omega

theorem fround_le (s n : ℕ) : fround s n ≤ n + 2 ^ s := by
  have base : n / 2 ^ s * 2 ^ s ≤ n := Nat.div_mul_le_self n (2 ^ s)
  rw [fround]
  split_ifs <;>
    first
      | (rw [add_mul, one_mul]; exact Nat.add_le_add_right base _)
      | exact le_trans base (Nat.le_add_right n _)

theorem le_fround (s n : ℕ) : n < fround s n + 2 ^ s := by
  have hmod : n % 2 ^ s < 2 ^ s := Nat.mod_lt _ (by positivity)
  have key : n < n / 2 ^ s * 2 ^ s + 2 ^ s := by
    calc n = 2 ^ s * (n / 2 ^ s) + n % 2 ^ s := (Nat.div_add_mod n (2 ^ s)).symm
    _ < 2 ^ s * (n / 2 ^ s) + 2 ^ s := Nat.add_lt_add_left hmod _
    _ = n / 2 ^ s * 2 ^ s + 2 ^ s := by ring
  have aux : n / 2 ^ s * 2 ^ s ≤ (n / 2 ^ s + 1) * 2 ^ s :=
    Nat.mul_le_mul_right _ (Nat.le_succ _)
  rw [fround]
  split_ifs <;>
    first
      | exact key
      | exact lt_of_lt_of_le key (Nat.add_le_add_right aux _)

theorem flN_le (n : ℕ) (h : n < 2 ^ 128) : flN n ≤ n + n / 2 ^ 52 := by
  rw [flN]
  by_cases hs : n < 2 ^ 53
  · rw [if_pos hs]
    omega
  · rw [if_neg hs]
    obtain ⟨l1, l2⟩ := lg_spec 128 n (by omega) h
    replace l1 : 2 ^ log2f n ≤ n := l1
    replace l2 : n < 2 ^ (log2f n + 1) := l2
    have hL : 53 ≤ log2f n := by
      by_contra hc
      have : (2 : ℕ) ^ (log2f n + 1) ≤ 2 ^ 53 :=
        Nat.pow_le_pow_right (by norm_num) (by omega)
      omega
    have hpow : 2 ^ (log2f n - 52) * 2 ^ 52 = 2 ^ log2f n := by
      rw [← pow_add]
      congr 1
      omega
    have hdiv : 2 ^ (log2f n - 52) ≤ n / 2 ^ 52 :=
      (Nat.le_div_iff_mul_le (by positivity)).mpr (by omega)
    have := fround_le (log2f n - 52) n
    omega

theorem le_flN (n : ℕ) (h : n < 2 ^ 128) : n ≤ flN n + n / 2 ^ 52 := by
  rw [flN]
  by_cases hs : n < 2 ^ 53
  · rw [if_pos hs]
    omega
  · rw [if_neg hs]
    obtain ⟨l1, l2⟩ := lg_spec 128 n (by omega) h
    replace l1 : 2 ^ log2f n ≤ n := l1
    replace l2 : n < 2 ^ (log2f n + 1) := l2
    have hL : 53 ≤ log2f n := by
      by_contra hc
      have : (2 : ℕ) ^ (log2f n + 1) ≤ 2 ^ 53 :=
        Nat.pow_le_pow_right (by norm_num) (by omega)
      omega
    have hpow : 2 ^ (log2f n - 52) * 2 ^ 52 = 2 ^ log2f n := by
      rw [← pow_add]
      congr 1
      omega
    have hdiv : 2 ^ (log2f n - 52) ≤ n / 2 ^ 52 :=
      (Nat.le_div_iff_mul_le (by positivity)).mpr (by omega)
    have := le_fround (log2f n - 52) n
    omega

/-- Error budget for one rounded product `flN (c * v)` where the double
`c` (scaled by `2 ^ 56`) approximates the per-mille weight `a / 1000`
within half an ulp (at most 4000 on the per-mille scale) and `v ≤ 255` is a channel value. -/
theorem prod_err (a c v : ℕ) (ha : a ≤ 1000) (hv : v ≤ 255)
    (hl : a * 2 ^ 56 ≤ 1000 * c + 4000) (hu : 1000 * c ≤ a * 2 ^ 56 + 4000) :
    c * v ≤ 18374686479671624700 ∧
    flN (c * v) ≤ c * v + 4080 ∧
    c * v ≤ flN (c * v) + 4080 ∧
    a * v * 2 ^ 56 ≤ 1000 * (c * v) + 1020000 ∧
    1000 * (c * v) ≤ a * v * 2 ^ 56 + 1020000 := by
  have hbc : c ≤ 2 ^ 56 + 4 := by
    have := Nat.mul_le_mul_right (2 ^ 56) ha
    have e : (2 : ℕ) ^ 56 = 72057594037927936 := by norm_num
    omega
  have hm : c * v ≤ 18374686479671624700 := by
    calc c * v ≤ (2 ^ 56 + 4) * 255 := Nat.mul_le_mul hbc hv
    _ = 18374686479671624700 := by norm_num
  have h128 : c * v < 2 ^ 128 := lt_of_le_of_lt hm (by norm_num)
  have hd : c * v / 2 ^ 52 ≤ 4080 := by
    calc c * v / 2 ^ 52 ≤ 18374686479671624700 / 2 ^ 52 :=
      Nat.div_le_div_right hm
    _ = 4080 := by norm_num
  have hfu := flN_le (c * v) h128
  have hfl := le_flN (c * v) h128
  have kl : a * v * 2 ^ 56 ≤ 1000 * (c * v) + 1020000 := by
    calc a * v * 2 ^ 56 = a * 2 ^ 56 * v := by ring
    _ ≤ (1000 * c + 4000) * v := Nat.mul_le_mul_right v hl
    _ = 1000 * (c * v) + 4000 * v := by ring
    _ ≤ 1000 * (c * v) + 1020000 := by omega
  have ku : 1000 * (c * v) ≤ a * v * 2 ^ 56 + 1020000 := by
    calc 1000 * (c * v) = 1000 * c * v := by ring
    _ ≤ (a * 2 ^ 56 + 4000) * v := Nat.mul_le_mul_right v hu
    _ = a * 2 ^ 56 * v + 4000 * v := by ring
    _ = a * v * 2 ^ 56 + 4000 * v := by ring
    _ ≤ a * v * 2 ^ 56 + 1020000 := by omega
  exact ⟨hm, by omega, by omega, kl, ku⟩

/-- The double pipeline `flN (flN (flN (c1*x) + flN (c2*y)) + flN (c3*z))`
tracks the exact per-mille sum `(a1*x + a2*y + a3*z) / 1000` to within
`2 ^ 45 / 2 ^ 56 < 0.002` of a channel unit, on the `1000 * 2 ^ 56`
scale. -/
theorem pix3_bounds (a1 a2 a3 c1 c2 c3 x y z : ℕ)
    (ha1 : a1 ≤ 1000) (ha2 : a2 ≤ 1000) (ha3 : a3 ≤ 1000)
    (hx : x ≤ 255) (hy : y ≤ 255) (hz : z ≤ 255)
    (hc1l : a1 * 2 ^ 56 ≤ 1000 * c1 + 4000)
    (hc1u : 1000 * c1 ≤ a1 * 2 ^ 56 + 4000)
    (hc2l : a2 * 2 ^ 56 ≤ 1000 * c2 + 4000)
    (hc2u : 1000 * c2 ≤ a2 * 2 ^ 56 + 4000)
    (hc3l : a3 * 2 ^ 56 ≤ 1000 * c3 + 4000)
    (hc3u : 1000 * c3 ≤ a3 * 2 ^ 56 + 4000) :
    (a1 * x + a2 * y + a3 * z) * 2 ^ 56 ≤
        1000 * pix3 c1 c2 c3 x y z + 2 ^ 45 ∧
    1000 * pix3 c1 c2 c3 x y z ≤
        (a1 * x + a2 * y + a3 * z) * 2 ^ 56 + 2 ^ 45 := by
  simp only [pix3]
  obtain ⟨m1, f1u, f1l, k1l, k1u⟩ := prod_err a1 c1 x ha1 hx hc1l hc1u
  obtain ⟨m2, f2u, f2l, k2l, k2u⟩ := prod_err a2 c2 y ha2 hy hc2l hc2u
  obtain ⟨m3, f3u, f3l, k3l, k3u⟩ := prod_err a3 c3 z ha3 hz hc3l hc3u
  have w56 : (2 : ℕ) ^ 56 = 72057594037927936 := by norm_num
  have w45 : (2 : ℕ) ^ 45 = 35184372088832 := by norm_num
  rw [w56] at k1l k1u k2l k2u k3l k3u
  rw [w56, w45]
  generalize gu1 : a1 * x = u1 at k1l k1u ⊢
  generalize gu2 : a2 * y = u2 at k2l k2u ⊢
  generalize gu3 : a3 * z = u3 at k3l k3u ⊢
  generalize gC1 : c1 * x = C1 at m1 f1u f1l k1l k1u ⊢
  generalize gC2 : c2 * y = C2 at m2 f2u f2l k2l k2u ⊢
  generalize gC3 : c3 * z = C3 at m3 f3u f3l k3l k3u ⊢
  have hSm : flN C1 + flN C2 ≤ 36749372959343257560 := by omega
  have h128S : flN C1 + flN C2 < 2 ^ 128 := lt_of_le_of_lt hSm (by norm_num)
  have fSu := flN_le (flN C1 + flN C2) h128S
  have fSl := le_flN (flN C1 + flN C2) h128S
  have hSd : (flN C1 + flN C2) / 2 ^ 52 ≤ 8160 := by
    calc (flN C1 + flN C2) / 2 ^ 52 ≤ 36749372959343257560 / 2 ^ 52 :=
      Nat.div_le_div_right hSm
    _ = 8160 := by norm_num
  have hTm : flN (flN C1 + flN C2) + flN C3 ≤ 55124059439014894500 := by
    omega
  have h128T : flN (flN C1 + flN C2) + flN C3 < 2 ^ 128 :=
    lt_of_le_of_lt hTm (by norm_num)
  have fTu := flN_le (flN (flN C1 + flN C2) + flN C3) h128T
  have fTl := le_flN (flN (flN C1 + flN C2) + flN C3) h128T
  have hTd : (flN (flN C1 + flN C2) + flN C3) / 2 ^ 52 ≤ 12240 := by
    calc (flN (flN C1 + flN C2) + flN C3) / 2 ^ 52 ≤
        55124059439014894500 / 2 ^ 52 := Nat.div_le_div_right hTm
    _ = 12240 := by norm_num
  constructor <;> omega

/-- A weighted channel `int(0.a1*x + 0.a2*y + 0.a3*z)` computed in doubles
lies within one unit below the exact per-mille floor: on the scale of
thousandths, `1000 * chan ≤ a1*x + a2*y + a3*z < 1000 * chan + 2000`. -/
theorem chan1000_bounds (a1 a2 a3 x y z : ℕ)
    (ha1 : a1 ≤ 1000) (ha2 : a2 ≤ 1000) (ha3 : a3 ≤ 1000)
    (hx : x ≤ 255) (hy : y ≤ 255) (hz : z ≤ 255)
    (hc1l : a1 * 2 ^ 56 ≤ 1000 * dbl1000 a1 + 4000)
    (hc1u : 1000 * dbl1000 a1 ≤ a1 * 2 ^ 56 + 4000)
    (hc2l : a2 * 2 ^ 56 ≤ 1000 * dbl1000 a2 + 4000)
    (hc2u : 1000 * dbl1000 a2 ≤ a2 * 2 ^ 56 + 4000)
    (hc3l : a3 * 2 ^ 56 ≤ 1000 * dbl1000 a3 + 4000)
    (hc3u : 1000 * dbl1000 a3 ≤ a3 * 2 ^ 56 + 4000) :
    1000 * chan1000 a1 a2 a3 x y z ≤ a1 * x + a2 * y + a3 * z ∧
    a1 * x + a2 * y + a3 * z < 1000 * chan1000 a1 a2 a3 x y z + 2000 := by
  obtain ⟨L, U⟩ := pix3_bounds a1 a2 a3 (dbl1000 a1) (dbl1000 a2) (dbl1000 a3)
    x y z ha1 ha2 ha3 hx hy hz hc1l hc1u hc2l hc2u hc3l hc3u
  simp only [chan1000]
  have w56 : (2 : ℕ) ^ 56 = 72057594037927936 := by norm_num
  have w45 : (2 : ℕ) ^ 45 = 35184372088832 := by norm_num
  rw [w56, w45] at L U
  rw [w56]
  generalize hE : a1 * x + a2 * y + a3 * z = E at L U ⊢
  generalize hP : pix3 (dbl1000 a1) (dbl1000 a2) (dbl1000 a3) x y z = P at L U ⊢
  constructor <;> omega

/-- `chan1000_bounds` at the grayscale weights 0.299, 0.587, 0.114. -/
theorem gray_chan_bounds (x y z : ℕ)
    (hx : x ≤ 255) (hy : y ≤ 255) (hz : z ≤ 255) :
    1000 * chan1000 299 587 114 x y z ≤ 299 * x + 587 * y + 114 * z ∧
    299 * x + 587 * y + 114 * z < 1000 * chan1000 299 587 114 x y z + 2000 :=
  chan1000_bounds 299 587 114 x y z (by norm_num) (by norm_num) (by norm_num)
    hx hy hz (by decide) (by decide) (by decide) (by decide) (by decide)
    (by decide)

/-! ## Lemmas on the coordinate traversal -/

theorem foldl_applyAt (f : ℤ → ℤ → ℤ → Pixel) :
    ∀ l : List (ℕ × ℕ), l.Nodup → ∀ (m : PixelMap) (c : ℕ × ℕ),
      l.foldl (applyAt f) m c =
        if c ∈ l then f (m c).1 (m c).2.1 (m c).2.2 else m c := by
  intro l
  induction l with
  | nil => simp
  | cons a t ih =>
    intro hnd m c
    have hat : a ∉ t := (List.nodup_cons.mp hnd).1
    have hndt : t.Nodup := (List.nodup_cons.mp hnd).2
    show List.foldl (applyAt f) (applyAt f m a) t c = _
    rw [ih hndt]
    by_cases hct : c ∈ t
    · have hca : c ≠ a := fun h => hat (h ▸ hct)
      simp [hct, applyAt, hca, List.mem_cons]
    · by_cases hca : c = a
      · subst hca
        simp [hct, applyAt]
      · simp [hct, applyAt, hca, List.mem_cons]

theorem mem_coords (W H : ℕ) (c : ℕ × ℕ) :
    c ∈ coords W H ↔ c.1 < W ∧ c.2 < H := by
  obtain ⟨x, y⟩ := c
  simp [coords]

theorem nodup_coords (W H : ℕ) : (coords W H).Nodup := by
  rw [coords, List.nodup_flatMap]
  refine ⟨fun i _ => ?_, ?_⟩
  · exact (List.nodup_range H).map fun a b h => by
      simpa using congrArg Prod.snd h
  · refine List.Pairwise.imp ?_ (List.pairwise_lt_range W)
    intro i j hij c hci hcj
    obtain ⟨y, _, rfl⟩ := List.mem_map.mp hci
    obtain ⟨z, _, hz⟩ := List.mem_map.mp hcj
    have := congrArg Prod.fst hz
    simp at this
    omega

/-! ## Claim theorems: transformer and integer filters -/

/-- C1: after `transform_pixels(pixel_map, W, H, f)` completes, the value
at every in-range coordinate `(x, y)` equals `f` applied to the original
value at `(x, y)`, every other coordinate is untouched, and the final
buffer does not depend on the iteration order: folding the same update
over any duplicate-free enumeration of exactly the in-range coordinates
yields the same final buffer. -/
theorem transform_pixels_correct (m : PixelMap) (W H : ℕ)
    (f : ℤ → ℤ → ℤ → Pixel) :
    (∀ x y : ℕ, x < W → y < H →
        transform_pixels m W H f (x, y) =
          f (m (x, y)).1 (m (x, y)).2.1 (m (x, y)).2.2) ∧
    (∀ x y : ℕ, ¬(x < W ∧ y < H) →
        transform_pixels m W H f (x, y) = m (x, y)) ∧
    (∀ l : List (ℕ × ℕ), l.Nodup →
        (∀ c : ℕ × ℕ, c ∈ l ↔ c.1 < W ∧ c.2 < H) →
        l.foldl (applyAt f) m = transform_pixels m W H f) := by
  refine ⟨?_, ?_, ?_⟩
  · intro x y hx hy
    rw [transform_pixels, foldl_applyAt f _ (nodup_coords W H),
      if_pos ((mem_coords W H (x, y)).mpr ⟨hx, hy⟩)]
  · intro x y h
    rw [transform_pixels, foldl_applyAt f _ (nodup_coords W H),
      if_neg fun hm => h ((mem_coords W H (x, y)).mp hm)]
  · intro l hnd hmem
    funext c
    rw [foldl_applyAt f l hnd, transform_pixels,
      foldl_applyAt f _ (nodup_coords W H)]
    by_cases h : c ∈ coords W H
    · rw [if_pos h, if_pos ((hmem c).mpr ((mem_coords W H c).mp h))]
    · rw [if_neg h, if_neg fun hl => h ((mem_coords W H c).mpr ((hmem c).mp hl))]

/-- Witness for C1 at the 2×1 example buffer with the cooler filter. -/
theorem transform_pixels_correct_witness :
    transform_pixels example_buffer 2 1 cooler_conversion_func (1, 0) =
      cooler_conversion_func (example_buffer (1, 0)).1
        (example_buffer (1, 0)).2.1 (example_buffer (1, 0)).2.2 ∧
    transform_pixels example_buffer 2 1 cooler_conversion_func (5, 7) =
      example_buffer (5, 7) ∧
    [((0 : ℕ), (0 : ℕ)), (1, 0)].foldl (applyAt cooler_conversion_func)
        example_buffer =
      transform_pixels example_buffer 2 1 cooler_conversion_func :=
  ⟨(transform_pixels_correct example_buffer 2 1 cooler_conversion_func).1
      1 0 (by decide) (by decide),
   (transform_pixels_correct example_buffer 2 1 cooler_conversion_func).2.1
      5 7 (by decide),
   (transform_pixels_correct example_buffer 2 1 cooler_conversion_func).2.2
      [(0, 0), (1, 0)] (by decide)
      (by
        intro c
        obtain ⟨a, b⟩ := c
        simp [List.mem_cons, Prod.ext_iff]
        omega)⟩

/-- C8: when `W = 0` or `H = 0` the traversal of `transform_pixels` is the
empty coordinate list — zero pixel reads and zero pixel writes — and the
buffer is returned unchanged, without error. -/
theorem transform_pixels_zero_size (m : PixelMap) (W H : ℕ)
    (f : ℤ → ℤ → ℤ → Pixel) (h : W = 0 ∨ H = 0) :
    coords W H = [] ∧ transform_pixels m W H f = m := by
  have hc : coords W H = [] := by
    refine List.eq_nil_iff_forall_not_mem.mpr fun c hm => ?_
    have := (mem_coords W H c).mp hm
    rcases h with h | h <;> omega
  exact ⟨hc, by rw [transform_pixels, hc]; rfl⟩

/-- Witness for C8 on a width-zero and a height-zero buffer. -/
theorem transform_pixels_zero_size_witness :
    (coords 0 5 = [] ∧
      transform_pixels example_buffer 0 5 grayscale_conversion_func =
        example_buffer) ∧
    (coords 7 0 = [] ∧
      transform_pixels example_buffer 7 0 sepia_conversion_func =
        example_buffer) :=
  ⟨transform_pixels_zero_size example_buffer 0 5 grayscale_conversion_func
      (Or.inl rfl),
   transform_pixels_zero_size example_buffer 7 0 sepia_conversion_func
      (Or.inr rfl)⟩

/-- C4: the warmer function returns exactly `(r+15, g, b-15)` and the
cooler function exactly `(r-15, g, b+15)` on all integers, with no clamp:
warmer on (250, 0, 0) yields a red channel of 265, above 255. -/
theorem warmer_cooler_formulas :
    (∀ r g b : ℤ, warmer_conversion_func r g b = (r + 15, g, b - 15) ∧
        cooler_conversion_func r g b = (r - 15, g, b + 15)) ∧
    warmer_conversion_func 250 0 0 = (265, 0, -15) ∧
    (255 : ℤ) < (warmer_conversion_func 250 0 0).1 :=
  ⟨fun _ _ _ => ⟨rfl, rfl⟩, by decide, by decide⟩

/-- C10: warmer and cooler are mutual inverses on every integer pixel. -/
theorem warmer_cooler_inverse (r g b : ℤ) :
    cooler_conversion_func (warmer_conversion_func r g b).1
        (warmer_conversion_func r g b).2.1
        (warmer_conversion_func r g b).2.2 = (r, g, b) ∧
    warmer_conversion_func (cooler_conversion_func r g b).1
        (cooler_conversion_func r g b).2.1
        (cooler_conversion_func r g b).2.2 = (r, g, b) := by
  constructor <;> simp [warmer_conversion_func, cooler_conversion_func]

/-- C6: the end-to-end scenario — the 2×1 buffer [(200,150,100),
(10,10,10)] under the cooler filter (resolved through the dispatch table)
becomes [(185,150,115), (-5,10,25)]; the second red channel is the
unclamped negative value -5. -/
theorem cooler_end_to_end :
    function_for_filter Filter.COOLER example_buffer 2 1 (0, 0) =
      (185, 150, 115) ∧
    function_for_filter Filter.COOLER example_buffer 2 1 (1, 0) =
      (-5, 10, 25) :=
  ⟨by decide, by decide⟩

/-- C5: selector resolution is case-insensitive — any string that
upper-cases to a member name of `Filter` resolves like the canonical
lowercase selector, to that member and its conversion function; any other
string fails with InvalidFilterSelector. -/
theorem filter_selector_case_insensitive :
    (∀ s : String, upperName s = "GRAYSCALE".data →
        filter_from_string s = Except.ok Filter.GRAYSCALE ∧
        filter_from_string s = filter_from_string "grayscale" ∧
        (filter_from_string s).map function_for_filter =
          Except.ok convert_to_grayscale) ∧
    (∀ s : String, upperName s = "SEPIA".data →
        filter_from_string s = Except.ok Filter.SEPIA ∧
        filter_from_string s = filter_from_string "sepia" ∧
        (filter_from_string s).map function_for_filter =
          Except.ok convert_to_sepia) ∧
    (∀ s : String, upperName s = "WARMER".data →
        filter_from_string s = Except.ok Filter.WARMER ∧
        filter_from_string s = filter_from_string "warmer" ∧
        (filter_from_string s).map function_for_filter =
          Except.ok convert_to_warmer) ∧
    (∀ s : String, upperName s = "COOLER".data →
        filter_from_string s = Except.ok Filter.COOLER ∧
        filter_from_string s = filter_from_string "cooler" ∧
        (filter_from_string s).map function_for_filter =
          Except.ok convert_to_cooler) ∧
    (∀ s : String, upperName s ≠ "GRAYSCALE".data →
        upperName s ≠ "SEPIA".data → upperName s ≠ "WARMER".data →
        upperName s ≠ "COOLER".data →
        filter_from_string s = Except.error FilterError.InvalidFilterSelector) := by
  refine ⟨fun s h => ?_, fun s h => ?_, fun s h => ?_, fun s h => ?_,
    fun s h1 h2 h3 h4 => ?_⟩
  · have e : filter_from_string s = Except.ok Filter.GRAYSCALE := by
      simp only [filter_from_string]
      rw [h]
      rfl
    exact ⟨e, by rw [e]; rfl, by rw [e]; rfl⟩
  · have e : filter_from_string s = Except.ok Filter.SEPIA := by
      simp only [filter_from_string]
      rw [h]
      rfl
    exact ⟨e, by rw [e]; rfl, by rw [e]; rfl⟩
  · have e : filter_from_string s = Except.ok Filter.WARMER := by
      simp only [filter_from_string]
      rw [h]
      rfl
    exact ⟨e, by rw [e]; rfl, by rw [e]; rfl⟩
  · have e : filter_from_string s = Except.ok Filter.COOLER := by
      simp only [filter_from_string]
      rw [h]
      rfl
    exact ⟨e, by rw [e]; rfl, by rw [e]; rfl⟩
  · simp only [filter_from_string]
    rw [if_neg h1, if_neg h2, if_neg h3, if_neg h4]

/-- Witness for C5: "Grayscale" resolves like "grayscale"; "blur" fails. -/
theorem filter_selector_case_insensitive_witness :
    filter_from_string "Grayscale" = Except.ok Filter.GRAYSCALE ∧
    filter_from_string "blur" = Except.error FilterError.InvalidFilterSelector :=
  ⟨(filter_selector_case_insensitive.1 "Grayscale" (by decide)).1,
   filter_selector_case_insensitive.2.2.2.2 "blur" (by decide) (by decide)
      (by decide) (by decide)⟩

/-! ## Claim theorems: the float-valued filters -/

/-- C2 counterexample: at pixel (1, 1, 1) the exact weighted sum
0.299 + 0.587 + 0.114 is exactly 1, so its floor is 1, but the code
produces channel 0: the double evaluation lands just below 1 and `int`
truncates it away.  The claimed equality with the exact floor fails. -/
theorem grayscale_not_exact_floor :
    grayscale_conversion_func 1 1 1 = (0, 0, 0) ∧
    (299 * 1 + 587 * 1 + 114 * 1) / 1000 = (1 : ℤ) :=
  ⟨by decide, by norm_num⟩

/-- C2 (amended): for channels in [0, 255] the grayscale output has all
three channels equal, and the common value is the exact floor
`(299r + 587g + 114b) / 1000` or at most one below it (the double
evaluation can drop an exactly-integer sum just under the integer). -/
theorem grayscale_floor_within_one (r g b : ℤ)
    (hr0 : 0 ≤ r) (hr : r ≤ 255) (hg0 : 0 ≤ g) (hg : g ≤ 255)
    (hb0 : 0 ≤ b) (hb : b ≤ 255) :
    ∃ v : ℤ, grayscale_conversion_func r g b = (v, v, v) ∧
      1000 * v ≤ 299 * r + 587 * g + 114 * b ∧
      299 * r + 587 * g + 114 * b < 1000 * v + 2000 := by
  obtain ⟨L, U⟩ := gray_chan_bounds r.toNat g.toNat b.toNat
    (by omega) (by omega) (by omega)
  exact ⟨(chan1000 299 587 114 r.toNat g.toNat b.toNat : ℕ), rfl,
    by omega, by omega⟩

/-- Witness for C2 at the pixel (0, 72, 24). -/
theorem grayscale_floor_within_one_witness :
    ∃ v : ℤ, grayscale_conversion_func 0 72 24 = (v, v, v) ∧
      1000 * v ≤ 299 * 0 + 587 * 72 + 114 * 24 ∧
      299 * 0 + 587 * 72 + 114 * 24 < 1000 * v + 2000 :=
  grayscale_floor_within_one 0 72 24 (by norm_num) (by norm_num)
    (by norm_num) (by norm_num) (by norm_num) (by norm_num)

/-- C9 counterexample: at pixel (0, 1, 0) the code produces channel 0,
but 0 is not the integer nearest to the exact sum 0.587: the distance
from 1 (413 thousandths) is smaller than the distance from 0
(587 thousandths), so round-to-nearest would give 1. -/
theorem grayscale_not_round :
    grayscale_conversion_func 0 1 0 = (0, 0, 0) ∧
    (1000 * 1 - 587 : ℤ) < 587 - 1000 * 0 :=
  ⟨by decide, by norm_num⟩

/-- C9 (amended): the grayscale channels all equal the truncation of the
double evaluation, which never exceeds any round-to-nearest value of the
exact sum: `2000 * v ≤ 2 * (299r + 587g + 114b) + 1000`; it can be
strictly below it (see the counterexample at (0, 1, 0)). -/
theorem grayscale_le_round (r g b : ℤ)
    (hr0 : 0 ≤ r) (hr : r ≤ 255) (hg0 : 0 ≤ g) (hg : g ≤ 255)
    (hb0 : 0 ≤ b) (hb : b ≤ 255) :
    ∃ v : ℤ, grayscale_conversion_func r g b = (v, v, v) ∧
      2000 * v ≤ 2 * (299 * r + 587 * g + 114 * b) + 1000 := by
  obtain ⟨L, U⟩ := gray_chan_bounds r.toNat g.toNat b.toNat
    (by omega) (by omega) (by omega)
  exact ⟨(chan1000 299 587 114 r.toNat g.toNat b.toNat : ℕ), rfl, by omega⟩

/-- Witness for C9 at the pixel (10, 20, 30). -/
theorem grayscale_le_round_witness :
    ∃ v : ℤ, grayscale_conversion_func 10 20 30 = (v, v, v) ∧
      2000 * v ≤ 2 * (299 * 10 + 587 * 20 + 114 * 30) + 1000 :=
  grayscale_le_round 10 20 30 (by norm_num) (by norm_num) (by norm_num)
    (by norm_num) (by norm_num) (by norm_num)

/-- C7 counterexample: grayscale is not idempotent.  At (0, 0, 9) one
application gives (1, 1, 1), but applying grayscale to (1, 1, 1) gives
(0, 0, 0) — the second pass is not a no-op. -/
theorem grayscale_not_idempotent :
    grayscale_conversion_func 0 0 9 = (1, 1, 1) ∧
    grayscale_conversion_func 1 1 1 = (0, 0, 0) :=
  ⟨by decide, by decide⟩

/-- C7 (amended): for channels in [0, 255], a second grayscale
application again yields an equal-channel triple whose common value is
the first value or exactly one less — never more, never further off. -/
theorem grayscale_twice_within_one (r g b : ℤ)
    (hr0 : 0 ≤ r) (hr : r ≤ 255) (hg0 : 0 ≤ g) (hg : g ≤ 255)
    (hb0 : 0 ≤ b) (hb : b ≤ 255) :
    ∃ v w : ℤ, grayscale_conversion_func r g b = (v, v, v) ∧
      grayscale_conversion_func v v v = (w, w, w) ∧
      (w = v ∨ w + 1 = v) := by
  have hrt : r.toNat ≤ 255 := by omega
  have hgt : g.toNat ≤ 255 := by omega
  have hbt : b.toNat ≤ 255 := by omega
  obtain ⟨L1, U1⟩ := gray_chan_bounds r.toNat g.toNat b.toNat hrt hgt hbt
  have hv255 : chan1000 299 587 114 r.toNat g.toNat b.toNat ≤ 255 := by omega
  obtain ⟨L2, U2⟩ := gray_chan_bounds _ _ _ hv255 hv255 hv255
  exact ⟨(chan1000 299 587 114 r.toNat g.toNat b.toNat : ℕ),
    (chan1000 299 587 114 (chan1000 299 587 114 r.toNat g.toNat b.toNat)
      (chan1000 299 587 114 r.toNat g.toNat b.toNat)
      (chan1000 299 587 114 r.toNat g.toNat b.toNat) : ℕ),
    rfl, rfl, by omega⟩

/-- Witness for C7 at the pixel (0, 0, 9), where the value drops by 1. -/
theorem grayscale_twice_within_one_witness :
    ∃ v w : ℤ, grayscale_conversion_func 0 0 9 = (v, v, v) ∧
      grayscale_conversion_func v v v = (w, w, w) ∧
      (w = v ∨ w + 1 = v) :=
  grayscale_twice_within_one 0 0 9 (by norm_num) (by norm_num) (by norm_num)
    (by norm_num) (by norm_num) (by norm_num)

/-- C3 counterexample: at pixel (4, 11, 21) the exact sepia red sum is
393·4 + 769·11 + 189·21 = 14000 per mille, whose truncation is exactly 14,
but the code produces red channel 13: the double evaluation lands just
below 14.  The claimed equality with the exact truncation fails. -/
theorem sepia_not_exact_trunc :
    sepia_conversion_func 4 11 21 = (13, 12, 9) ∧
    (393 * 4 + 769 * 11 + 189 * 21) / 1000 = (14 : ℤ) :=
  ⟨by decide, by norm_num⟩

/-- C3 (amended): each sepia channel is the exact per-mille truncation of
its weighted sum or at most one below it, and no upper clamp is applied:
at (255, 255, 255) the red channel is 344, above 255, reproduced as is. -/
theorem sepia_trunc_within_one :
    (∀ r g b : ℤ, 0 ≤ r → r ≤ 255 → 0 ≤ g → g ≤ 255 → 0 ≤ b → b ≤ 255 →
      ∃ R G B : ℤ, sepia_conversion_func r g b = (R, G, B) ∧
        1000 * R ≤ 393 * r + 769 * g + 189 * b ∧
        393 * r + 769 * g + 189 * b < 1000 * R + 2000 ∧
        1000 * G ≤ 349 * r + 686 * g + 168 * b ∧
        349 * r + 686 * g + 168 * b < 1000 * G + 2000 ∧
        1000 * B ≤ 272 * r + 534 * g + 131 * b ∧
        272 * r + 534 * g + 131 * b < 1000 * B + 2000) ∧
    sepia_conversion_func 255 255 255 = (344, 306, 238) ∧
    (255 : ℤ) < (sepia_conversion_func 255 255 255).1 := by
  refine ⟨fun r g b hr0 hr hg0 hg hb0 hb => ?_, by decide, by decide⟩
  obtain ⟨LR, UR⟩ := chan1000_bounds 393 769 189 r.toNat g.toNat b.toNat
    (by norm_num) (by norm_num) (by norm_num) (by omega) (by omega) (by omega)
    (by decide) (by decide) (by decide) (by decide) (by decide) (by decide)
  obtain ⟨LG, UG⟩ := chan1000_bounds 349 686 168 r.toNat g.toNat b.toNat
    (by norm_num) (by norm_num) (by norm_num) (by omega) (by omega) (by omega)
    (by decide) (by decide) (by decide) (by decide) (by decide) (by decide)
  obtain ⟨LB, UB⟩ := chan1000_bounds 272 534 131 r.toNat g.toNat b.toNat
    (by norm_num) (by norm_num) (by norm_num) (by omega) (by omega) (by omega)
    (by decide) (by decide) (by decide) (by decide) (by decide) (by decide)
  exact ⟨(chan1000 393 769 189 r.toNat g.toNat b.toNat : ℕ),
    (chan1000 349 686 168 r.toNat g.toNat b.toNat : ℕ),
    (chan1000 272 534 131 r.toNat g.toNat b.toNat : ℕ),
    rfl, by omega, by omega, by omega, by omega, by omega, by omega⟩

/-- Witness for C3 at the pixel (4, 11, 21). -/
theorem sepia_trunc_within_one_witness :
    ∃ R G B : ℤ, sepia_conversion_func 4 11 21 = (R, G, B) ∧
      1000 * R ≤ 393 * 4 + 769 * 11 + 189 * 21 ∧
      393 * 4 + 769 * 11 + 189 * 21 < 1000 * R + 2000 ∧
      1000 * G ≤ 349 * 4 + 686 * 11 + 168 * 21 ∧
      349 * 4 + 686 * 11 + 168 * 21 < 1000 * G + 2000 ∧
      1000 * B ≤ 272 * 4 + 534 * 11 + 131 * 21 ∧
      272 * 4 + 534 * 11 + 131 * 21 < 1000 * B + 2000 :=
  sepia_trunc_within_one.1 4 11 21 (by norm_num) (by norm_num) (by norm_num)
    (by norm_num) (by norm_num) (by norm_num)

end ImageFilter
